import Mathlib

/-!
Verification of the DBIO catalog subsystem (src/dbio) of the
EnduroASP repository: the JSON file backend (`src/dbio/backends/json_file.py`),
the catalog manager facade (`src/dbio/core.py`), the migration manager and
hybrid dual-write backend (`src/dbio/migration.py`), and — for comparison —
the PostgreSQL backend's search path (`src/dbio/backends/postgresql_updated.py`).

The catalog is a Python dict hierarchy volume → library → object → attributes.
Python dicts are modelled as insertion-ordered association lists with
first-match lookup; dict assignment replaces an existing binding in place and
appends a new one, exactly as CPython preserves insertion order.  Attribute
values are modelled as strings (the code treats them as opaque data; the only
operations performed on them are equality tests and substring searches).
Timestamps (`datetime.utcnow().isoformat()`) are modelled as an explicit
`now : String` argument.
-/

set_option autoImplicit false

namespace DBIO

/-- A Python `dict` with string keys: an insertion-ordered association list. -/
abbrev Dict (α : Type) : Type := List (String × α)

variable {α : Type}

/-- Python `d[k]` / `k in d`: the (first) binding of `k`, if any. -/
def dlookup (k : String) : Dict α → Option α
  | [] => none
  | kv :: d => if kv.1 = k then some kv.2 else dlookup k d

/-- Python `d.get(k, default)`. -/
def dget (d : Dict α) (k : String) (default : α) : α :=
  (dlookup k d).getD default

/-- Python `d[k] = v`: replace the binding of `k` in place, or append a new one. -/
def dinsert (d : Dict α) (k : String) (v : α) : Dict α :=
  match d with
  | [] => [(k, v)]
  | kv :: rest => if kv.1 = k then (k, v) :: rest else kv :: dinsert rest k v

/-- Python `d.update(u)`: assign every binding of `u` into `d`, in order. -/
def dupdate (d u : Dict α) : Dict α :=
  u.foldl (fun acc kv => dinsert acc kv.1 kv.2) d

/-- Python `del d[k]`: remove the (first) binding of `k`. -/
def derase (d : Dict α) (k : String) : Dict α :=
  match d with
  | [] => []
  | kv :: rest => if kv.1 = k then rest else kv :: derase rest k

/-- The keys of the dict are pairwise distinct.  Every real Python dict
satisfies this; it is an invariant of the model, not of the code. -/
def NodupKeys (d : Dict α) : Prop := (d.map Prod.fst).Nodup

instance (d : Dict α) : Decidable (NodupKeys d) :=
  inferInstanceAs (Decidable (List.Nodup _))

/-! ## The catalog hierarchy (catalog.json format) -/

/-- The attribute bag of one catalog object (TYPE, CREATED, UPDATED, ...). -/
abbrev Attrs : Type := Dict String

/-- object_name → attributes. -/
abbrev ObjDict : Type := Dict Attrs

/-- library_name → objects. -/
abbrev LibDict : Type := Dict ObjDict

/-- volume_name → libraries: the full catalog. -/
abbrev Catalog : Type := Dict LibDict

instance attrsDecEq : DecidableEq Attrs := inferInstance

instance objDictDecEq : DecidableEq ObjDict :=
  @instDecidableEqList _ (@instDecidableEqProd _ _ _ attrsDecEq)

instance libDictDecEq : DecidableEq LibDict :=
  @instDecidableEqList _ (@instDecidableEqProd _ _ _ objDictDecEq)

instance catalogDecEq : DecidableEq Catalog :=
  @instDecidableEqList _ (@instDecidableEqProd _ _ _ libDictDecEq)

/-- All dicts in the hierarchy have pairwise-distinct keys — true of every
catalog produced by `json.load` or by Python dict operations. -/
def CatalogWF (cat : Catalog) : Prop :=
  NodupKeys cat ∧ ∀ vkv ∈ cat, NodupKeys vkv.2 ∧ ∀ lkv ∈ vkv.2, NodupKeys lkv.2

instance (cat : Catalog) : Decidable (CatalogWF cat) :=
  inferInstanceAs (Decidable (_ ∧ _))

/-! ## JSONFileBackend (src/dbio/backends/json_file.py) -/

/-- `JSONFileBackend.get_object`: the guarded access
`catalog[volume][library][object_name]` (returning `None` when any level of
the chain is missing).  Written with defaults: each missing level yields the
empty dict, at which point the final lookup is `none`, which is the same
result as the membership-guard chain in the source. -/
def get_object (cat : Catalog) (volume library object_name : String) : Option Attrs :=
  dlookup object_name (dget (dget cat volume []) library [])

/-- Python `volume in catalog` on the persisted hierarchy. -/
def mem_volume (cat : Catalog) (volume : String) : Bool :=
  (dlookup volume cat).isSome

/-- Python `library in catalog[volume]` (false when the volume is absent). -/
def mem_library (cat : Catalog) (volume library : String) : Bool :=
  (dlookup library (dget cat volume [])).isSome

/-- The `CREATED`-preservation step of `JSONFileBackend.update_object`
(also duplicated verbatim in `bulk_operations`): if the existing record has a
`CREATED` timestamp and the incoming attributes do not, the incoming
attributes acquire the existing `CREATED` (Python appends the new key). -/
def created_merge (existing attributes : Attrs) : Attrs :=
  match dlookup "CREATED" existing, dlookup "CREATED" attributes with
  | some c, none => dinsert attributes "CREATED" c
  | _, _ => attributes

/-- `JSONFileBackend.update_object`: ensure volume/library/object dicts exist
(empty when absent), preserve `CREATED` per `created_merge`, then
`dict.update` the existing record with the attributes.  The source ends with
`_save_catalog`, which persists the new catalog (returning `True` or raising);
the model returns the persisted catalog. -/
def update_object (cat : Catalog) (volume library object_name : String)
    (attributes : Attrs) : Catalog :=
  let volData := dget cat volume []
  let libData := dget volData library []
  let existing := dget libData object_name []
  let newObj := dupdate existing (created_merge existing attributes)
  dinsert cat volume (dinsert volData library (dinsert libData object_name newObj))

/-- `JSONFileBackend.delete_object`: returns `False` (and saves nothing) when
the object does not exist; otherwise deletes it and prunes the library if it
became empty, and then the volume if it became empty. -/
def delete_object (cat : Catalog) (volume library object_name : String) :
    Catalog × Bool :=
  if (get_object cat volume library object_name).isSome then
    (if (derase (dget (dget cat volume []) library []) object_name).isEmpty then
       (if (derase (dget cat volume []) library).isEmpty then derase cat volume
        else dinsert cat volume (derase (dget cat volume []) library))
     else
       dinsert cat volume
         (dinsert (dget cat volume []) library
           (derase (dget (dget cat volume []) library []) object_name)),
     true)
  else (cat, false)

/-! ## DBIOManager (src/dbio/core.py) -/

/-- `DBIOManager.update_catalog_info`: builds
`{'TYPE': object_type, 'UPDATED': now, **kwargs}`, stamps
`CREATED = UPDATED` when `not existing` (object absent, or present with an
empty attribute dict — Python truthiness), then delegates to
`update_object`.  `now` models `datetime.utcnow().isoformat() + 'Z'`. -/
def update_catalog_info (cat : Catalog) (now : String)
    (volume library object_name object_type : String) (kwargs : Attrs) : Catalog :=
  let attributes := dupdate [("TYPE", object_type), ("UPDATED", now)] kwargs
  let existing := get_object cat volume library object_name
  let attributes :=
    if (existing.getD []).isEmpty then
      dinsert attributes "CREATED" (dget attributes "UPDATED" "")
    else attributes
  update_object cat volume library object_name attributes

/-- One call to `update_catalog_info` in a sequence of updates. -/
structure UpdateCall where
  now : String
  object_type : String
  kwargs : Attrs
deriving DecidableEq

/-- A sequence of `update_catalog_info` calls against the same key. -/
def apply_updates (cat : Catalog) (volume library object_name : String) :
    List UpdateCall → Catalog
  | [] => cat
  | u :: rest =>
      apply_updates (update_catalog_info cat u.now volume library object_name
        u.object_type u.kwargs) volume library object_name rest

/-! ## Stable sorting (Python `list.sort`)

Python's `list.sort` is a stable ascending sort by the comparison key;
`reverse=True` flips the comparison but keeps ties in their original order.  Any stable
sort with the same "a may stay before b" relation produces the same list, so
the model uses a structural stable insertion sort. -/

/-- Insert `a` before the first element `b` with `le a b`; ties keep the
earlier element (here `a`) first, as Python's stable sort does. -/
def insertLe {β : Type} (le : β → β → Bool) (a : β) : List β → List β
  | [] => [a]
  | b :: l => if le a b then a :: b :: l else b :: insertLe le a l

/-- Stable insertion sort with respect to `le`. -/
def sortBy {β : Type} (le : β → β → Bool) : List β → List β
  | [] => []
  | a :: l => insertLe le a (sortBy le l)

/-! ## query_objects / search_objects (json_file.py) -/

/-- One element of the flattened result list built by
`JSONFileBackend.query_objects`. -/
structure QueryResult where
  volume_name : String
  library_name : String
  object_name : String
  attributes : Attrs
deriving DecidableEq

/-- The flattening loop of `query_objects`: volumes, then libraries, then
objects, in catalog order. -/
def flatten_catalog (cat : Catalog) : List QueryResult :=
  cat.flatMap fun vkv => vkv.2.flatMap fun lkv => lkv.2.map fun okv =>
    { volume_name := vkv.1, library_name := lkv.1,
      object_name := okv.1, attributes := okv.2 }

/-- The filter loop of `query_objects`: `object_type` matches
`attributes.get('TYPE')` (default `None`, so an absent TYPE never matches),
`volume`/`library` match the flattened names, and any other key matches
`str(attributes.get(key, ''))` against `str(value)`. -/
def filter_match (filters : List (String × String)) (r : QueryResult) : Bool :=
  filters.all fun kv =>
    if kv.1 = "object_type" then decide (dlookup "TYPE" r.attributes = some kv.2)
    else if kv.1 = "volume" then decide (r.volume_name = kv.2)
    else if kv.1 = "library" then decide (r.library_name = kv.2)
    else decide (dget r.attributes kv.1 "" = kv.2)

/-- The sort key of `query_objects`: the three flattened name fields sort on
themselves, any other field sorts on `attributes.get(field, '')`. -/
def sort_field_key (field : String) (r : QueryResult) : String :=
  if field = "volume_name" then r.volume_name
  else if field = "library_name" then r.library_name
  else if field = "object_name" then r.object_name
  else dget r.attributes field ""

/-- One `results.sort(key=..., reverse=direction.upper() == 'DESC')` pass. -/
def apply_sort_step (fd : String × String) (acc : List QueryResult) :
    List QueryResult :=
  if fd.2.toUpper = "DESC" then
    sortBy (fun a b => decide (sort_field_key fd.1 b ≤ sort_field_key fd.1 a)) acc
  else
    sortBy (fun a b => decide (sort_field_key fd.1 a ≤ sort_field_key fd.1 b)) acc

/-- The sort loop of `query_objects`: the `(field, direction)` pairs are
applied in reverse order, each as one stable sort pass. -/
def apply_sort (sortSpec : List (String × String)) (results : List QueryResult) :
    List QueryResult :=
  sortSpec.reverse.foldl (fun acc fd => apply_sort_step fd acc) results

/-- The limit step of `query_objects`: `if limit and limit > 0` — `None`, `0`
and negative limits are all ignored; a positive limit truncates after
sorting. -/
def apply_limit (limit : Option Int) (results : List QueryResult) :
    List QueryResult :=
  match limit with
  | some n => if 0 < n then results.take n.toNat else results
  | none => results

/-- `JSONFileBackend.query_objects`: flatten, filter, sort, limit.
`filters = []` / `sortSpec = []` behave as the skipped `if filters:` /
`if sort:` branches (filtering by the empty conjunction and folding over the
empty sort list are both the identity). -/
def query_objects (cat : Catalog) (filters : List (String × String))
    (sortSpec : List (String × String)) (limit : Option Int) : List QueryResult :=
  apply_limit limit
    (apply_sort sortSpec ((flatten_catalog cat).filter (filter_match filters)))

/-- Python `str.lower()` for one character, restricted to ASCII: the catalog
data the code handles is ASCII, where CPython's `str.lower` is exactly this
map.  (`String.toLower` itself is not used because its recursion is not
kernel-reducible.) -/
def charLower (c : Char) : Char :=
  if 65 ≤ c.toNat ∧ c.toNat ≤ 90 then Char.ofNat (c.toNat + 32) else c

/-- Python `s.lower()` (ASCII). -/
def strLower (s : String) : String := ⟨s.data.map charLower⟩

/-- Containment of the character list `p` somewhere inside the second list. -/
def containsSub (p : List Char) : List Char → Bool
  | [] => p.isEmpty
  | c :: l => p.isPrefixOf (c :: l) || containsSub p l

/-- Python `pattern in s` (substring containment). -/
def strContains (s pattern : String) : Bool :=
  containsSub pattern.data s.data

/-- The searchable text of `search_objects`:
`object_name.lower() + ' ' + attributes.get('DESCRIPTION', '').lower()`. -/
def searchable_text (r : QueryResult) : String :=
  strLower r.object_name ++ " " ++ strLower (dget r.attributes "DESCRIPTION" "")

/-- The rank computed by `JSONFileBackend.search_objects`, scaled by 10 to
stay in `Nat`: base 1.0 (=10), +0.5 (=5) when the query occurs in the
lowercased name, +0.3 (=3) when it occurs in the lowercased description.  The
possible float ranks 1.0 / 1.3 / 1.5 / 1.8 compare exactly as these
integers do. -/
def search_rank (queryLower : String) (r : QueryResult) : Nat :=
  10 + (if strContains (strLower r.object_name) queryLower then 5 else 0)
     + (if strContains (strLower (dget r.attributes "DESCRIPTION" "")) queryLower
        then 3 else 0)

/-- `JSONFileBackend.search_objects`: query all objects (optionally filtered
by type), keep those whose searchable text contains the lowercased query,
attach the rank (the source stores it under the extra dict key `'rank'`;
the model pairs it with the record), and stable-sort by descending rank. -/
def search_objects (cat : Catalog) (query : String) (object_type : Option String) :
    List (QueryResult × Nat) :=
  let queryLower := strLower query
  let filters := match object_type with
    | some t => [("object_type", t)]
    | none => []
  let allObjects := query_objects cat filters [] none
  let results := allObjects.filterMap fun obj =>
    if strContains (searchable_text obj) queryLower then
      some (obj, search_rank queryLower obj)
    else none
  sortBy (fun a b => decide (b.2 ≤ a.2)) results

/-! ## PostgreSQLBackend.search_objects (postgresql_updated.py)

The relational backend selects `volume_name, library_name, object_name,
object_type` for rows whose `object_name ILIKE '%query%'` (case-insensitive
substring over the name only — the description is not searched), optionally
filtered by `object_type`, ordered by `object_name` ascending, with no rank.
The model evaluates that query against the same abstract catalog contents
(queries containing the SQL wildcards `%`/`_` aside). -/

/-- One row returned by the PostgreSQL search. -/
structure PgSearchRow where
  volume_name : String
  library_name : String
  object_name : String
  object_type : String
deriving DecidableEq

/-- `PostgreSQLBackend.search_objects` over the same catalog contents. -/
def pg_search_objects (cat : Catalog) (query : String)
    (object_type : Option String) : List PgSearchRow :=
  let matched := (flatten_catalog cat).filter fun obj =>
    strContains (strLower obj.object_name) (strLower query) &&
    match object_type with
    | some t => decide (dget obj.attributes "TYPE" "" = t)
    | none => true
  sortBy (fun a b => decide (a.object_name ≤ b.object_name))
    (matched.map fun obj =>
      { volume_name := obj.volume_name, library_name := obj.library_name,
        object_name := obj.object_name,
        object_type := dget obj.attributes "TYPE" "" })

/-! ## bulk_operations (json_file.py) -/

/-- One entry of a `bulk_operations` batch.  `update`/`delete` carry the
fields the code reads; `unknownType` is an entry whose `type` is neither
`'update'` nor `'delete'` (silently skipped, no error); `malformed` is an
entry whose processing raises (e.g. the entry is not a dict, so
`operation.get` raises) — the `except` branch counts it in `errors` and
continues. -/
inductive BulkOp where
  | update (volume library object_name : String) (attributes : Attrs)
  | delete (volume library object_name : String)
  | unknownType
  | malformed
deriving DecidableEq

/-- The running counters of `bulk_operations`. -/
structure BulkStats where
  created : Nat
  updated : Nat
  deleted : Nat
  errors : Nat
deriving DecidableEq

/-- One iteration of the `bulk_operations` loop.  The update branch checks
existence first, then performs exactly the `update_object` mutation (the
source duplicates that code inline); the delete branch performs exactly the
`delete_object` mutation and counts only actual deletions. -/
def bulk_step (st : Catalog × BulkStats) (op : BulkOp) : Catalog × BulkStats :=
  match op with
  | .update volume library object_name attributes =>
      let exists0 := (get_object st.1 volume library object_name).isSome
      let cat' := update_object st.1 volume library object_name attributes
      if exists0 then (cat', { st.2 with updated := st.2.updated + 1 })
      else (cat', { st.2 with created := st.2.created + 1 })
  | .delete volume library object_name =>
      let r := delete_object st.1 volume library object_name
      if r.2 then (r.1, { st.2 with deleted := st.2.deleted + 1 })
      else (r.1, st.2)
  | .unknownType => st
  | .malformed => (st.1, { st.2 with errors := st.2.errors + 1 })

/-- `JSONFileBackend.bulk_operations`: one `_load_catalog` read, every
operation applied in order against the in-memory state, one `_save_catalog`
persist at the end.  Returns the persisted catalog and the counters. -/
def bulk_operations (cat : Catalog) (operations : List BulkOp) :
    Catalog × BulkStats :=
  operations.foldl bulk_step (cat, ⟨0, 0, 0, 0⟩)

/-! ## import_catalog (json_file.py) -/

/-- One step of the merge-import inner loop:
`existing[volume][library] = {}` when absent, then
`existing[volume][library].update(library_data)`. -/
def merge_lib_into (volData : LibDict) (lkv : String × ObjDict) : LibDict :=
  dinsert volData lkv.1 (dupdate (dget volData lkv.1 []) lkv.2)

/-- `JSONFileBackend.import_catalog`: `merge=False` saves `catalog_data` as
is; `merge=True` deep-merges at the library level — each incoming library's
objects are `dict.update`d into the existing library (colliding names
overwritten by the incoming objects).  The source also counts
volumes/libraries/objects for its statistics dict; the model returns the
persisted catalog. -/
def import_catalog (existingCat catalog_data : Catalog) (merge : Bool) : Catalog :=
  if merge then
    catalog_data.foldl
      (fun acc vkv => dinsert acc vkv.1 (vkv.2.foldl merge_lib_into (dget acc vkv.1 [])))
      existingCat
  else catalog_data

/-! ## MigrationManager.migrate_catalog (migration.py) -/

/-- `MigrationManager._count_objects`: total object count of a catalog. -/
def count_objects (cat : Catalog) : Nat :=
  (cat.map fun vkv => (vkv.2.map fun lkv => lkv.2.length).sum).sum

/-- The observable outcome of one `migrate_catalog` run: the returned
`dry_run` / `backup_created` / `source_objects` stats fields, and the target
backend's catalog after the call (unchanged on a dry run, since the target
manager is not even constructed). -/
structure MigrationOutcome where
  dryRun : Bool
  backupCreated : Bool
  sourceObjects : Nat
  targetAfter : Catalog
deriving DecidableEq

/-- `MigrationManager.migrate_catalog`: a backup is created only when
`backup_before and not dry_run`; the source catalog is read and counted; a
dry run returns at that point; otherwise the source is imported into the
target with `merge=False`.  The `validate_after` re-read compares counts and
diffs and is returned as data; it does not change either catalog, so the
model keeps only the flag. -/
def migrate_catalog (source target : Catalog)
    (backup_before _validate_after dry_run : Bool) : MigrationOutcome :=
  let backupCreated := backup_before && !dry_run
  let sourceObjects := count_objects source
  if dry_run then
    { dryRun := true, backupCreated := backupCreated,
      sourceObjects := sourceObjects, targetAfter := target }
  else
    { dryRun := false, backupCreated := backupCreated,
      sourceObjects := sourceObjects,
      targetAfter := import_catalog target source false }

/-! ## HybridBackend (migration.py) -/

/-- What one write-manager's `update_catalog_info` call did: returned a
boolean (its value is ignored by `HybridBackend`), or raised with a
message. -/
inductive WriteOutcome where
  | ok (result : Bool)
  | raised (msg : String)
deriving DecidableEq

/-- `true` iff the write call completed without raising. -/
def WriteOutcome.succeeded : WriteOutcome → Bool
  | .ok _ => true
  | .raised _ => false

/-- `HybridBackend.update_catalog_info`: reset the error list, attempt the
write on every write-manager in list order, append
`"Backend write error: ..."` and clear the success flag on each exception,
and return the flag.  The pair is (returned success, `self.write_errors`,
the latter retrievable via `get_write_errors`). -/
def hybrid_update_catalog_info (outcomes : List WriteOutcome) :
    Bool × List String :=
  outcomes.foldl
    (fun acc oc =>
      match oc with
      | .ok _ => acc
      | .raised msg => (false, acc.2 ++ ["Backend write error: " ++ msg]))
    (true, [])

/-- `HybridBackend.get_write_errors`: a copy of the last error list. -/
def get_write_errors (st : Bool × List String) : List String := st.2

/-! ## _load_catalog failure behaviour (json_file.py) -/

/-- The states the catalog file can be in, as far as `_load_catalog` can
distinguish them: absent (`FileNotFoundError`), unparseable
(`json.JSONDecodeError`), parseable but not a JSON object
(`isinstance(data, dict)` fails), or a valid catalog object. -/
inductive FileState where
  | missing
  | invalidJson
  | nonDict
  | valid (cat : Catalog)
deriving DecidableEq

/-- `JSONFileBackend._load_catalog`: a valid dict is returned as is; the
other three states all produce the empty catalog (the two exceptions are
caught and logged, the non-dict value is replaced by `{}`). -/
def load_catalog : FileState → Catalog
  | .valid cat => cat
  | _ => []

/-- `JSONFileBackend.get_all_objects` reads through `_load_catalog`. -/
def get_all_objects (fs : FileState) : Catalog :=
  load_catalog fs

/-- `JSONFileBackend.get_object` reads through `_load_catalog`. -/
def get_object_fs (fs : FileState) (volume library object_name : String) :
    Option Attrs :=
  get_object (load_catalog fs) volume library object_name

/-- `JSONFileBackend.query_objects` reads through `_load_catalog`. -/
def query_objects_fs (fs : FileState) (filters sortSpec : List (String × String))
    (limit : Option Int) : List QueryResult :=
  query_objects (load_catalog fs) filters sortSpec limit

/-! ## Lemmas about the dict model -/

@[simp]
theorem dlookup_dinsert_self (d : Dict α) (k : String) (v : α) :
    dlookup k (dinsert d k v) = some v := by
  induction d with
  | nil => simp [dinsert, dlookup]
  | cons kv rest ih =>
    by_cases h : kv.1 = k
    · simp [dinsert, h, dlookup]
    · simp [dinsert, h, dlookup, ih]

theorem dlookup_dinsert_ne (d : Dict α) {k k' : String} (v : α) (h : k' ≠ k) :
    dlookup k' (dinsert d k v) = dlookup k' d := by
  induction d with
  | nil => simp [dinsert, dlookup, Ne.symm h]
  | cons kv rest ih =>
    by_cases hk : kv.1 = k
    · simp [dinsert, hk, dlookup, Ne.symm h]
    · simp [dinsert, hk, dlookup, ih]

theorem mem_keys_dinsert {d : Dict α} {k k' : String} {v : α} :
    k' ∈ (dinsert d k v).map Prod.fst ↔ k' = k ∨ k' ∈ d.map Prod.fst := by
  induction d with
  | nil => simp [dinsert]
  | cons kv rest ih =>
    by_cases hk : kv.1 = k
    · subst hk; simp [dinsert]
    · simp [dinsert, hk, ih]; tauto

theorem nodupKeys_dinsert {d : Dict α} (k : String) (v : α) (h : NodupKeys d) :
    NodupKeys (dinsert d k v) := by
  induction d with
  | nil => simp [dinsert, NodupKeys]
  | cons kv rest ih =>
    rw [NodupKeys, List.map_cons, List.nodup_cons] at h
    by_cases hk : kv.1 = k
    · rw [NodupKeys]
      simp only [dinsert, if_pos hk, List.map_cons, List.nodup_cons]
      exact ⟨hk ▸ h.1, h.2⟩
    · rw [NodupKeys]
      simp only [dinsert, if_neg hk, List.map_cons, List.nodup_cons]
      refine ⟨?_, ih h.2⟩
      intro hmem
      rcases mem_keys_dinsert.mp hmem with h1 | h1
      · exact hk h1
      · exact h.1 h1

theorem nodupKeys_dupdate {d : Dict α} (u : Dict α) (h : NodupKeys d) :
    NodupKeys (dupdate d u) := by
  induction u generalizing d with
  | nil => exact h
  | cons kv rest ih => exact ih (nodupKeys_dinsert kv.1 kv.2 h)

theorem dlookup_eq_none {d : Dict α} {k : String} (h : k ∉ d.map Prod.fst) :
    dlookup k d = none := by
  induction d with
  | nil => rfl
  | cons kv rest ih =>
    simp only [List.map_cons, List.mem_cons, not_or] at h
    rw [dlookup, if_neg (fun he => h.1 he.symm)]
    exact ih h.2

theorem dlookup_dupdate (d : Dict α) {u : Dict α} (hu : NodupKeys u) (k : String) :
    dlookup k (dupdate d u) = (dlookup k u).or (dlookup k d) := by
  induction u generalizing d with
  | nil => simp [dupdate, dlookup]
  | cons kv rest ih =>
    rw [NodupKeys, List.map_cons, List.nodup_cons] at hu
    have hstep : dupdate d (kv :: rest) = dupdate (dinsert d kv.1 kv.2) rest := rfl
    rw [hstep, ih _ hu.2]
    by_cases hk : kv.1 = k
    · subst hk
      rw [dlookup_eq_none hu.1]
      simp [dlookup]
    · rw [dlookup_dinsert_ne _ _ (fun he => hk he.symm)]
      simp [dlookup, hk]

theorem dlookup_derase_self {d : Dict α} (h : NodupKeys d) (k : String) :
    dlookup k (derase d k) = none := by
  induction d with
  | nil => rfl
  | cons kv rest ih =>
    rw [NodupKeys, List.map_cons, List.nodup_cons] at h
    by_cases hk : kv.1 = k
    · rw [derase, if_pos hk]
      subst hk
      exact dlookup_eq_none h.1
    · rw [derase, if_neg hk, dlookup, if_neg hk]
      exact ih h.2

theorem dlookup_derase_ne (d : Dict α) {k k' : String} (h : k' ≠ k) :
    dlookup k' (derase d k) = dlookup k' d := by
  induction d with
  | nil => rfl
  | cons kv rest ih =>
    by_cases hk : kv.1 = k
    · rw [derase, if_pos hk, dlookup, if_neg (fun he => h (hk ▸ he).symm)]
    · rw [derase, if_neg hk, dlookup, dlookup]
      by_cases hk' : kv.1 = k'
      · rw [if_pos hk', if_pos hk']
      · rw [if_neg hk', if_neg hk', ih]

theorem mem_of_dlookup {d : Dict α} {k : String} {v : α}
    (h : dlookup k d = some v) : (k, v) ∈ d := by
  induction d with
  | nil => simp [dlookup] at h
  | cons kv rest ih =>
    obtain ⟨a, b⟩ := kv
    simp only [dlookup] at h
    by_cases hk : a = k
    · rw [if_pos hk] at h
      injection h with h
      subst hk
      subst h
      exact List.mem_cons_self _ _
    · rw [if_neg hk] at h
      exact List.mem_cons_of_mem _ (ih h)

theorem isEmpty_eq_false_of_dlookup {d : Dict α} {k : String} {v : α}
    (h : dlookup k d = some v) : d.isEmpty = false := by
  cases d with
  | nil => simp [dlookup] at h
  | cons kv rest => rfl

/-! ## Lemmas about the stable sort -/

theorem mem_insertLe {β : Type} (le : β → β → Bool) (a x : β) (l : List β) :
    x ∈ insertLe le a l ↔ x = a ∨ x ∈ l := by
  induction l with
  | nil => simp [insertLe]
  | cons b t ih =>
    by_cases h : le a b
    · simp [insertLe, h]
    · simp [insertLe, h, ih]; tauto

theorem mem_sortBy {β : Type} (le : β → β → Bool) (x : β) (l : List β) :
    x ∈ sortBy le l ↔ x ∈ l := by
  induction l with
  | nil => simp [sortBy]
  | cons a t ih => simp [sortBy, mem_insertLe, ih]

theorem pairwise_insertLe {β : Type} {le : β → β → Bool}
    (htot : ∀ x y, le x y = true ∨ le y x = true)
    (htrans : ∀ x y z, le x y = true → le y z = true → le x z = true)
    (a : β) {l : List β} (hl : l.Pairwise (fun x y => le x y = true)) :
    (insertLe le a l).Pairwise (fun x y => le x y = true) := by
  induction l with
  | nil => simp [insertLe]
  | cons b t ih =>
    rcases List.pairwise_cons.mp hl with ⟨hb, ht⟩
    by_cases h : le a b = true
    · rw [insertLe, if_pos h]
      refine List.pairwise_cons.mpr ⟨?_, hl⟩
      intro y hy
      rcases List.mem_cons.mp hy with rfl | hy
      · exact h
      · exact htrans a b y h (hb y hy)
    · rw [insertLe, if_neg h]
      refine List.pairwise_cons.mpr ⟨?_, ih ht⟩
      intro y hy
      rcases (mem_insertLe le a y t).mp hy with hEq | hy
      · rw [hEq]
        rcases htot a b with h1 | h1
        · exact absurd h1 h
        · exact h1
      · exact hb y hy

theorem pairwise_sortBy {β : Type} {le : β → β → Bool}
    (htot : ∀ x y, le x y = true ∨ le y x = true)
    (htrans : ∀ x y z, le x y = true → le y z = true → le x z = true)
    (l : List β) : (sortBy le l).Pairwise (fun x y => le x y = true) := by
  induction l with
  | nil => simp [sortBy]
  | cons a t ih => exact pairwise_insertLe htot htrans a ih

/-! ## Lemmas about the catalog operations -/

/-- After `update_object`, the touched key holds the merged record:
the existing record (empty when absent) updated with the
`CREATED`-preserving attributes. -/
theorem get_object_update_object (cat : Catalog) (v l o : String) (a : Attrs) :
    get_object (update_object cat v l o a) v l o =
      some (dupdate (dget (dget (dget cat v []) l []) o [])
        (created_merge (dget (dget (dget cat v []) l []) o []) a)) := by
  simp [get_object, update_object, dget, dlookup_dinsert_self]

/-- When `get_object` misses, the nested default chain yields the empty
record. -/
theorem dget_chain_of_get_object_none {cat : Catalog} {v l o : String}
    (h : get_object cat v l o = none) :
    dget (dget (dget cat v []) l []) o [] = [] := by
  rw [get_object] at h
  rw [dget, h]
  rfl

/-- When `get_object` hits, the nested default chain yields that record. -/
theorem dget_chain_of_get_object_some {cat : Catalog} {v l o : String}
    {rec : Attrs} (h : get_object cat v l o = some rec) :
    dget (dget (dget cat v []) l []) o [] = rec := by
  rw [get_object] at h
  rw [dget, h]
  rfl

theorem apply_sort_step_nil (fd : String × String) : apply_sort_step fd [] = [] := by
  rw [apply_sort_step]
  split <;> rfl

theorem apply_sort_nil (sortSpec : List (String × String)) :
    apply_sort sortSpec [] = [] := by
  rw [apply_sort]
  induction sortSpec.reverse with
  | nil => rfl
  | cons fd t ih => rw [List.foldl_cons, apply_sort_step_nil]; exact ih

theorem apply_limit_nil (limit : Option Int) : apply_limit limit [] = [] := by
  cases limit with
  | none => rfl
  | some n =>
    rw [apply_limit]
    split <;> simp

theorem query_objects_nil (filters sortSpec : List (String × String))
    (limit : Option Int) :
    query_objects [] filters sortSpec limit = [] := by
  rw [query_objects]
  have h1 : flatten_catalog [] = [] := rfl
  rw [h1]
  rw [show ([] : List QueryResult).filter (filter_match filters) = [] from rfl]
  rw [apply_sort_nil, apply_limit_nil]

theorem hybrid_foldl_general (outcomes : List WriteOutcome) (b : Bool)
    (es : List String) :
    outcomes.foldl
      (fun acc oc =>
        match oc with
        | .ok _ => acc
        | .raised msg => (false, acc.2 ++ ["Backend write error: " ++ msg]))
      (b, es) =
    (b && outcomes.all WriteOutcome.succeeded,
     es ++ outcomes.filterMap fun oc =>
       match oc with
       | .raised m => some ("Backend write error: " ++ m)
       | .ok _ => none) := by
  induction outcomes generalizing b es with
  | nil => simp
  | cons oc rest ih =>
    cases oc with
    | ok r => simp [List.foldl_cons, ih, WriteOutcome.succeeded]
    | raised m => simp [List.foldl_cons, ih, WriteOutcome.succeeded]

/-! ## Claim theorems -/

/-- C6: `migrate_catalog` with `dry_run=True` never touches the target
catalog and never creates a backup file, whatever `backup_before` and
`validate_after` are, and its statistics report
`source_objects = count_objects source`. -/
theorem c6_migrate_dry_run (source target : Catalog)
    (backup_before validate_after : Bool) :
    migrate_catalog source target backup_before validate_after true =
      { dryRun := true, backupCreated := false,
        sourceObjects := count_objects source, targetAfter := target } := by
  simp [migrate_catalog]

/-- C7: `HybridBackend.update_catalog_info` attempts the write on every
write-manager in list order; each raised exception is appended (in order) to
the list returned by `get_write_errors` and does not stop the remaining
attempts, and the returned flag is `true` iff every write completed without
raising.  (The boolean each manager returns is ignored by the source; within
this repository every manager's `update_catalog_info` either returns `True`
or raises.) -/
theorem c7_hybrid_write_fanout (outcomes : List WriteOutcome) :
    get_write_errors (hybrid_update_catalog_info outcomes) =
      (outcomes.filterMap fun oc =>
        match oc with
        | .raised m => some ("Backend write error: " ++ m)
        | .ok _ => none) ∧
    ((hybrid_update_catalog_info outcomes).1 = true ↔
      ∀ oc ∈ outcomes, oc.succeeded = true) := by
  rw [hybrid_update_catalog_info, hybrid_foldl_general]
  constructor
  · rfl
  · simp [List.all_eq_true]

/-- C9: whenever the catalog file is missing, unparseable, or holds a
non-dict top-level value, every `JSONFileBackend` read path sees the empty
catalog: `get_all_objects` is the empty mapping, `get_object` misses for
every key, and `query_objects` returns the empty list. -/
theorem c9_load_failure_empty (fs : FileState)
    (h : ∀ cat, fs ≠ FileState.valid cat) :
    get_all_objects fs = [] ∧
    (∀ v l o, get_object_fs fs v l o = none) ∧
    (∀ filters sortSpec limit, query_objects_fs fs filters sortSpec limit = []) := by
  have hload : load_catalog fs = [] := by
    cases fs with
    | valid cat => exact absurd rfl (h cat)
    | missing => rfl
    | invalidJson => rfl
    | nonDict => rfl
  refine ⟨hload, ?_, ?_⟩
  · intro v l o
    rw [get_object_fs, hload]
    rfl
  · intro filters sortSpec limit
    rw [query_objects_fs, hload, query_objects_nil]

/-- Witness for C9 at each of the three failure states. -/
theorem c9_witness :
    get_all_objects FileState.missing = [] ∧
    get_object_fs FileState.invalidJson "V" "L" "O" = none ∧
    query_objects_fs FileState.nonDict [] [] none = [] := by
  refine ⟨?_, ?_, ?_⟩
  · exact (c9_load_failure_empty FileState.missing (fun _ h => by cases h)).1
  · exact (c9_load_failure_empty FileState.invalidJson
      (fun _ h => by cases h)).2.1 "V" "L" "O"
  · exact (c9_load_failure_empty FileState.nonDict
      (fun _ h => by cases h)).2.2 [] [] none

/-- C10: in `JSONFileBackend.query_objects` a limit of `0` or a negative
number is ignored (the whole filtered, sorted result is returned, the same
list as with no limit at all), while a positive limit truncates the result
after sorting. -/
theorem c10_query_limit (cat : Catalog) (filters sortSpec : List (String × String)) :
    query_objects cat filters sortSpec (some 0) =
      query_objects cat filters sortSpec none ∧
    (∀ n : Int, n ≤ 0 → query_objects cat filters sortSpec (some n) =
      query_objects cat filters sortSpec none) ∧
    (∀ n : Int, 0 < n → query_objects cat filters sortSpec (some n) =
      (query_objects cat filters sortSpec none).take n.toNat) := by
  refine ⟨?_, ?_, ?_⟩
  · simp [query_objects, apply_limit]
  · intro n hn
    simp only [query_objects, apply_limit]
    rw [if_neg (by omega)]
  · intro n hn
    simp only [query_objects, apply_limit]
    rw [if_pos hn]

/-- Witness for C10 on a concrete two-object catalog. -/
theorem c10_witness :
    query_objects [("V", [("L", [("A", []), ("B", [])])])] [] [] (some 0) =
      query_objects [("V", [("L", [("A", []), ("B", [])])])] [] [] none ∧
    query_objects [("V", [("L", [("A", []), ("B", [])])])] [] [] (some (-1)) =
      query_objects [("V", [("L", [("A", []), ("B", [])])])] [] [] none ∧
    query_objects [("V", [("L", [("A", []), ("B", [])])])] [] [] (some 1) =
      (query_objects [("V", [("L", [("A", []), ("B", [])])])] [] [] none).take
        (Int.toNat 1) := by
  have h := c10_query_limit [("V", [("L", [("A", []), ("B", [])])])] [] []
  exact ⟨h.1, h.2.1 (-1) (by decide), h.2.2 1 (by decide)⟩

/-- C5: `delete_object` on a missing key returns `false` and leaves the
persisted hierarchy untouched; on a hit it returns `true`, and when the
deleted object was the last one in its library the library is pruned, and
when that library was additionally the last one in its volume the volume is
pruned as well. -/
theorem c5_delete_object_spec (cat : Catalog) (v l o : String)
    (hwf : CatalogWF cat) :
    (get_object cat v l o = none → delete_object cat v l o = (cat, false)) ∧
    ((get_object cat v l o).isSome = true →
      (delete_object cat v l o).2 = true ∧
      (derase (dget (dget cat v []) l []) o = [] →
        mem_library (delete_object cat v l o).1 v l = false ∧
        (derase (dget cat v []) l = [] →
          mem_volume (delete_object cat v l o).1 v = false))) := by
  constructor
  · intro h
    rw [delete_object, h]
    rfl
  · intro hs
    -- the hit means every level of the chain is present
    cases hv : dlookup v cat with
    | none =>
      simp [get_object, dget, hv, dlookup] at hs
    | some volData =>
      cases hl : dlookup l volData with
      | none =>
        simp [get_object, dget, hv, hl, dlookup] at hs
      | some libData =>
        have hvol : dget cat v [] = volData := by rw [dget, hv]; rfl
        have hlib : dget volData l [] = libData := by rw [dget, hl]; rfl
        have hndv : NodupKeys volData := (hwf.2 _ (mem_of_dlookup hv)).1
        rw [delete_object, if_pos hs, hvol, hlib]
        refine ⟨rfl, ?_⟩
        intro hlast
        rw [hlast, if_pos List.isEmpty_nil]
        constructor
        · -- the library is pruned in both surviving branches
          cases hE : (derase volData l).isEmpty with
          | true =>
            rw [if_pos rfl, mem_library, dget, dlookup_derase_self hwf.1]
            rfl
          | false =>
            rw [if_neg Bool.false_ne_true, mem_library, dget,
              dlookup_dinsert_self, Option.getD_some, dlookup_derase_self hndv]
            rfl
        · intro hvlast
          rw [hvlast, if_pos List.isEmpty_nil, mem_volume,
            dlookup_derase_self hwf.1]
          rfl

/-- Witness for C5: missing key, and full cascade on a one-object catalog. -/
theorem c5_witness :
    delete_object [] "V" "L" "O" = ([], false) ∧
    (delete_object [("V", [("L", [("O", [("TYPE", "PGM")])])])] "V" "L" "O").2 =
      true ∧
    mem_library
      (delete_object [("V", [("L", [("O", [("TYPE", "PGM")])])])] "V" "L" "O").1
      "V" "L" = false ∧
    mem_volume
      (delete_object [("V", [("L", [("O", [("TYPE", "PGM")])])])] "V" "L" "O").1
      "V" = false := by
  have h1 := c5_delete_object_spec [] "V" "L" "O" (by decide)
  have h2 := c5_delete_object_spec [("V", [("L", [("O", [("TYPE", "PGM")])])])]
    "V" "L" "O" (by decide)
  have h2s := h2.2 (by decide)
  have hc := h2s.2 (by decide)
  exact ⟨h1.1 (by decide), h2s.1, hc.1, hc.2 (by decide)⟩

theorem bulk_foldl_errors_shift (ops : List BulkOp) (c : Catalog) (s : BulkStats)
    (n : Nat) :
    ops.foldl bulk_step (c, { s with errors := s.errors + n }) =
      ((ops.foldl bulk_step (c, s)).1,
       { (ops.foldl bulk_step (c, s)).2 with
         errors := (ops.foldl bulk_step (c, s)).2.errors + n }) := by
  induction ops generalizing c s with
  | nil => rfl
  | cons op rest ih =>
    rw [List.foldl_cons, List.foldl_cons]
    have hstep : bulk_step (c, { s with errors := s.errors + n }) op =
        ((bulk_step (c, s) op).1,
         { (bulk_step (c, s) op).2 with
           errors := (bulk_step (c, s) op).2.errors + n }) := by
      cases op with
      | update v l o a =>
        simp only [bulk_step]
        split <;> rfl
      | delete v l o =>
        simp only [bulk_step]
        split <;> rfl
      | unknownType => rfl
      | malformed => simp [bulk_step, Nat.add_right_comm]
    rw [hstep]
    exact ih (bulk_step (c, s) op).1 (bulk_step (c, s) op).2

theorem bulk_foldl_errors_of_no_malformed (ops : List BulkOp) (c : Catalog)
    (s : BulkStats) (h : BulkOp.malformed ∉ ops) :
    (ops.foldl bulk_step (c, s)).2.errors = s.errors := by
  induction ops generalizing c s with
  | nil => rfl
  | cons op rest ih =>
    rw [List.foldl_cons]
    have h1 : BulkOp.malformed ∉ rest := fun hm => h (List.mem_cons_of_mem _ hm)
    have h2 : op ≠ BulkOp.malformed := fun he => h (he ▸ List.mem_cons_self _ _)
    have hstep : (bulk_step (c, s) op).2.errors = s.errors := by
      cases op with
      | update v l o a => simp only [bulk_step]; split <;> rfl
      | delete v l o => simp only [bulk_step]; split <;> rfl
      | unknownType => rfl
      | malformed => exact absurd rfl h2
    calc (rest.foldl bulk_step (bulk_step (c, s) op)).2.errors
        = (bulk_step (c, s) op).2.errors :=
          ih (bulk_step (c, s) op).1 (bulk_step (c, s) op).2 h1
      _ = s.errors := hstep

/-- C3: `bulk_operations` applies the whole batch against one in-memory read
followed by a single persist (that is the shape of `bulk_operations` itself);
a raising operation only increments `errors` and changes nothing else, so a
batch with exactly one malformed entry among well-formed ones persists the
same catalog as the batch without it, with the same counters except
`errors = 1` (and the all-well-formed batch reports `errors = 0`). -/
theorem c3_bulk_partial_tolerant (cat : Catalog) (pre post : List BulkOp)
    (hpre : BulkOp.malformed ∉ pre) (hpost : BulkOp.malformed ∉ post) :
    (bulk_operations cat (pre ++ BulkOp.malformed :: post)).1 =
      (bulk_operations cat (pre ++ post)).1 ∧
    (bulk_operations cat (pre ++ BulkOp.malformed :: post)).2 =
      { (bulk_operations cat (pre ++ post)).2 with errors := 1 } ∧
    (bulk_operations cat (pre ++ post)).2.errors = 0 := by
  rw [bulk_operations, bulk_operations, List.foldl_append, List.foldl_append,
    List.foldl_cons]
  set X := pre.foldl bulk_step (cat, (⟨0, 0, 0, 0⟩ : BulkStats)) with hX
  have hpre0 : X.2.errors = 0 :=
    bulk_foldl_errors_of_no_malformed pre cat _ hpre
  have hmal : bulk_step X BulkOp.malformed =
      (X.1, { X.2 with errors := X.2.errors + 1 }) := rfl
  rw [hmal, bulk_foldl_errors_shift post X.1 X.2 1]
  have hY0 : (post.foldl bulk_step (X.1, X.2)).2.errors = X.2.errors :=
    bulk_foldl_errors_of_no_malformed post X.1 X.2 hpost
  refine ⟨rfl, ?_, ?_⟩
  · rw [hY0, hpre0]
  · rw [hY0, hpre0]

/-- Witness for C3: one malformed entry between two valid updates. -/
theorem c3_witness :
    (bulk_operations []
        ([BulkOp.update "V" "L" "A" [("TYPE", "PGM")]] ++ BulkOp.malformed ::
          [BulkOp.update "V" "L" "B" [("TYPE", "MAP")]])).1 =
      (bulk_operations []
        ([BulkOp.update "V" "L" "A" [("TYPE", "PGM")]] ++
          [BulkOp.update "V" "L" "B" [("TYPE", "MAP")]])).1 ∧
    (bulk_operations []
        ([BulkOp.update "V" "L" "A" [("TYPE", "PGM")]] ++ BulkOp.malformed ::
          [BulkOp.update "V" "L" "B" [("TYPE", "MAP")]])).2 =
      { (bulk_operations []
          ([BulkOp.update "V" "L" "A" [("TYPE", "PGM")]] ++
            [BulkOp.update "V" "L" "B" [("TYPE", "MAP")]])).2 with
        errors := 1 } ∧
    (bulk_operations []
        ([BulkOp.update "V" "L" "A" [("TYPE", "PGM")]] ++
          [BulkOp.update "V" "L" "B" [("TYPE", "MAP")]])).2.errors = 0 :=
  c3_bulk_partial_tolerant [] [BulkOp.update "V" "L" "A" [("TYPE", "PGM")]]
    [BulkOp.update "V" "L" "B" [("TYPE", "MAP")]] (by decide) (by decide)

theorem dget_eq_of_dlookup {d : Dict α} {k : String} {x : α}
    (h : dlookup k d = some x) (default : α) : dget d k default = x := by
  rw [dget, h]
  rfl

theorem dget_eq_default {d : Dict α} {k : String} (h : dlookup k d = none)
    (default : α) : dget d k default = default := by
  rw [dget, h]
  rfl

theorem dlookup_merge_vol_none (aVol : LibDict) {bVol : LibDict} {l : String}
    (h : dlookup l bVol = none) :
    dlookup l (bVol.foldl merge_lib_into aVol) = dlookup l aVol := by
  induction bVol generalizing aVol with
  | nil => rfl
  | cons lkv rest ih =>
    rw [dlookup] at h
    by_cases hk : lkv.1 = l
    · rw [if_pos hk] at h
      exact absurd h (by simp)
    · rw [if_neg hk] at h
      rw [List.foldl_cons, ih _ h, merge_lib_into,
        dlookup_dinsert_ne _ _ (fun he => hk he.symm)]

theorem dlookup_merge_vol_some (aVol : LibDict) {bVol : LibDict}
    (hb : NodupKeys bVol) {l : String} {objs : ObjDict}
    (h : dlookup l bVol = some objs) :
    dlookup l (bVol.foldl merge_lib_into aVol) =
      some (dupdate (dget aVol l []) objs) := by
  induction bVol generalizing aVol with
  | nil => simp [dlookup] at h
  | cons lkv rest ih =>
    rw [NodupKeys, List.map_cons, List.nodup_cons] at hb
    rw [dlookup] at h
    by_cases hk : lkv.1 = l
    · rw [if_pos hk] at h
      injection h with h
      have hnone : dlookup l rest = none :=
        dlookup_eq_none (fun hm => hb.1 (hk ▸ hm))
      rw [List.foldl_cons, dlookup_merge_vol_none _ hnone, merge_lib_into, hk,
        dlookup_dinsert_self, h]
    · rw [if_neg hk] at h
      rw [List.foldl_cons, ih _ hb.2 h]
      have hd : dget (merge_lib_into aVol lkv) l [] = dget aVol l [] := by
        rw [merge_lib_into, dget,
          dlookup_dinsert_ne _ _ (fun he => hk he.symm)]
        rfl
      rw [hd]

theorem dlookup_merge_fold_none (a : Catalog) {b : Catalog} {v : String}
    (h : dlookup v b = none) :
    dlookup v
      (b.foldl
        (fun acc vkv =>
          dinsert acc vkv.1 (vkv.2.foldl merge_lib_into (dget acc vkv.1 [])))
        a) = dlookup v a := by
  induction b generalizing a with
  | nil => rfl
  | cons vkv rest ih =>
    rw [dlookup] at h
    by_cases hk : vkv.1 = v
    · rw [if_pos hk] at h
      exact absurd h (by simp)
    · rw [if_neg hk] at h
      rw [List.foldl_cons, ih _ h,
        dlookup_dinsert_ne _ _ (fun he => hk he.symm)]

theorem dlookup_merge_fold_some (a : Catalog) {b : Catalog}
    (hb : NodupKeys b) {v : String} {volData : LibDict}
    (h : dlookup v b = some volData) :
    dlookup v
      (b.foldl
        (fun acc vkv =>
          dinsert acc vkv.1 (vkv.2.foldl merge_lib_into (dget acc vkv.1 [])))
        a) = some (volData.foldl merge_lib_into (dget a v [])) := by
  induction b generalizing a with
  | nil => simp [dlookup] at h
  | cons vkv rest ih =>
    rw [NodupKeys, List.map_cons, List.nodup_cons] at hb
    rw [dlookup] at h
    by_cases hk : vkv.1 = v
    · rw [if_pos hk] at h
      injection h with h
      have hnone : dlookup v rest = none :=
        dlookup_eq_none (fun hm => hb.1 (hk ▸ hm))
      rw [List.foldl_cons, dlookup_merge_fold_none _ hnone, hk,
        dlookup_dinsert_self, h]
    · rw [if_neg hk] at h
      rw [List.foldl_cons, ih _ hb.2 h]
      have hd : dget (dinsert a vkv.1 (vkv.2.foldl merge_lib_into
          (dget a vkv.1 []))) v [] = dget a v [] := by
        rw [dget, dlookup_dinsert_ne _ _ (fun he => hk he.symm)]
        rfl
      rw [hd]

/-- C4: `import_catalog` with `merge=False` persists exactly the imported
catalog; with `merge=True` the volumes and libraries of the result are the
union of both catalogs' and, object by object, the imported catalog's
objects win over same-named existing ones while non-colliding existing
objects are kept (`get_object` on the merge result is the imported lookup
with the existing lookup as fallback). -/
theorem c4_import_merge_replace (a b : Catalog) (hb : CatalogWF b) :
    import_catalog a b false = b ∧
    (∀ v, mem_volume (import_catalog a b true) v =
      (mem_volume a v || mem_volume b v)) ∧
    (∀ v l, mem_library (import_catalog a b true) v l =
      (mem_library a v l || mem_library b v l)) ∧
    (∀ v l o, get_object (import_catalog a b true) v l o =
      (get_object b v l o).or (get_object a v l o)) := by
  have himp : import_catalog a b true =
      b.foldl
        (fun acc vkv =>
          dinsert acc vkv.1 (vkv.2.foldl merge_lib_into (dget acc vkv.1 [])))
        a := rfl
  refine ⟨rfl, ?_, ?_, ?_⟩
  · intro v
    simp only [mem_volume]
    rw [himp]
    cases hv : dlookup v b with
    | none =>
      rw [dlookup_merge_fold_none _ hv]
      simp
    | some volData =>
      rw [dlookup_merge_fold_some _ hb.1 hv]
      simp
  · intro v l
    simp only [mem_library]
    rw [himp]
    cases hv : dlookup v b with
    | none =>
      have hda : dget
          (b.foldl
            (fun acc vkv =>
              dinsert acc vkv.1 (vkv.2.foldl merge_lib_into (dget acc vkv.1 [])))
            a) v [] = dget a v [] := by
        rw [dget, dlookup_merge_fold_none _ hv]
        rfl
      rw [hda, dget_eq_default hv]
      simp [dlookup]
    | some volData =>
      have hndv : NodupKeys volData := (hb.2 _ (mem_of_dlookup hv)).1
      have hda : dget
          (b.foldl
            (fun acc vkv =>
              dinsert acc vkv.1 (vkv.2.foldl merge_lib_into (dget acc vkv.1 [])))
            a) v [] = volData.foldl merge_lib_into (dget a v []) := by
        rw [dget, dlookup_merge_fold_some _ hb.1 hv]
        rfl
      rw [hda, dget_eq_of_dlookup hv]
      cases hl : dlookup l volData with
      | none =>
        rw [dlookup_merge_vol_none _ hl]
        simp
      | some objs =>
        rw [dlookup_merge_vol_some _ hndv hl]
        simp
  · intro v l o
    simp only [get_object]
    rw [himp]
    cases hv : dlookup v b with
    | none =>
      have hda : dget
          (b.foldl
            (fun acc vkv =>
              dinsert acc vkv.1 (vkv.2.foldl merge_lib_into (dget acc vkv.1 [])))
            a) v [] = dget a v [] := by
        rw [dget, dlookup_merge_fold_none _ hv]
        rfl
      rw [hda, dget_eq_default hv]
      simp [dget, dlookup]
    | some volData =>
      have hventry := hb.2 _ (mem_of_dlookup hv)
      have hda : dget
          (b.foldl
            (fun acc vkv =>
              dinsert acc vkv.1 (vkv.2.foldl merge_lib_into (dget acc vkv.1 [])))
            a) v [] = volData.foldl merge_lib_into (dget a v []) := by
        rw [dget, dlookup_merge_fold_some _ hb.1 hv]
        rfl
      rw [hda, dget_eq_of_dlookup hv]
      cases hl : dlookup l volData with
      | none =>
        have hdl : dget (volData.foldl merge_lib_into (dget a v [])) l [] =
            dget (dget a v []) l [] := by
          rw [dget, dlookup_merge_vol_none _ hl]
          rfl
        rw [hdl, dget_eq_default hl]
        simp [dlookup]
      | some objs =>
        have hnobj : NodupKeys objs := hventry.2 _ (mem_of_dlookup hl)
        have hdl : dget (volData.foldl merge_lib_into (dget a v [])) l [] =
            dupdate (dget (dget a v []) l []) objs := by
          rw [dget, dlookup_merge_vol_some _ hventry.1 hl]
          rfl
        rw [hdl, dget_eq_of_dlookup hl, dlookup_dupdate _ hnobj]

/-- Witness for C4 on concrete overlapping catalogs. -/
theorem c4_witness :
    import_catalog [("V1", [("L1", [("A", [("TYPE", "PGM")])])])]
      [("V1", [("L1", [("B", [("TYPE", "MAP")])])])] false =
      [("V1", [("L1", [("B", [("TYPE", "MAP")])])])] ∧
    get_object
      (import_catalog [("V1", [("L1", [("A", [("TYPE", "PGM")])])])]
        [("V1", [("L1", [("B", [("TYPE", "MAP")])])])] true) "V1" "L1" "A" =
      (get_object [("V1", [("L1", [("B", [("TYPE", "MAP")])])])] "V1" "L1" "A").or
        (get_object [("V1", [("L1", [("A", [("TYPE", "PGM")])])])] "V1" "L1" "A") := by
  have h := c4_import_merge_replace [("V1", [("L1", [("A", [("TYPE", "PGM")])])])]
    [("V1", [("L1", [("B", [("TYPE", "MAP")])])])] (by decide)
  exact ⟨h.1, h.2.2.2 "V1" "L1" "A"⟩

/-- C1 as stated fails when `attrs` itself carries a `CREATED` key: on a
first write `update_catalog_info` overwrites any caller-supplied `CREATED`
with the fresh `UPDATED` stamp (`attributes['CREATED'] =
attributes['UPDATED']` runs unconditionally when no record existed), so the
returned record does not contain the caller's `CREATED` pair. -/
theorem c1_counterexample :
    get_object ([] : Catalog) "V" "L" "O" = none ∧
    dlookup "CREATED" [("CREATED", "T0")] = some "T0" ∧
    (get_object (update_catalog_info [] "T1" "V" "L" "O" "PGM"
        [("CREATED", "T0")]) "V" "L" "O").bind (dlookup "CREATED") =
      some "T1" ∧
    ("T1" : String) ≠ "T0" := by
  refine ⟨rfl, rfl, rfl, by decide⟩

/-- C1 (amended: `attrs` contains no `CREATED` key): on a first write,
`update_catalog_info` followed by `get_object` returns a record that
contains every key/value pair of `attrs` and has `CREATED` and `UPDATED`
both populated and equal.  The nodup-keys hypothesis just states that
`attrs` is a dict. -/
theorem c1_amended (cat : Catalog) (now v l o ty : String) (kwargs : Attrs)
    (hnd : NodupKeys kwargs) (hkc : dlookup "CREATED" kwargs = none)
    (hnew : get_object cat v l o = none) :
    ∃ rec,
      get_object (update_catalog_info cat now v l o ty kwargs) v l o =
        some rec ∧
      (∀ k val, dlookup k kwargs = some val → dlookup k rec = some val) ∧
      ∃ t, dlookup "CREATED" rec = some t ∧ dlookup "UPDATED" rec = some t := by
  have hbase : NodupKeys [("TYPE", ty), ("UPDATED", now)] := by
    simp [NodupKeys]
  have hchain := dget_chain_of_get_object_none hnew
  have hunfold : update_catalog_info cat now v l o ty kwargs =
      update_object cat v l o
        (dinsert (dupdate [("TYPE", ty), ("UPDATED", now)] kwargs) "CREATED"
          (dget (dupdate [("TYPE", ty), ("UPDATED", now)] kwargs) "UPDATED" "")) := by
    rw [update_catalog_info, hnew]
    rfl
  set attrs1 := dupdate [("TYPE", ty), ("UPDATED", now)] kwargs with hattrs1
  have hnd1 : NodupKeys attrs1 := nodupKeys_dupdate kwargs hbase
  have hupd1 : dlookup "UPDATED" attrs1 = (dlookup "UPDATED" kwargs).or (some now) := by
    rw [hattrs1, dlookup_dupdate _ hnd]
    rfl
  obtain ⟨tU, htU⟩ : ∃ tU, dlookup "UPDATED" attrs1 = some tU := by
    rw [hupd1]
    cases dlookup "UPDATED" kwargs <;> simp
  have ht0 : dget attrs1 "UPDATED" "" = tU := dget_eq_of_dlookup htU ""
  set attrs2 := dinsert attrs1 "CREATED" (dget attrs1 "UPDATED" "") with hattrs2
  have hnd2 : NodupKeys attrs2 := nodupKeys_dinsert _ _ hnd1
  refine ⟨dupdate [] attrs2, ?_, ?_, ?_⟩
  · rw [hunfold, get_object_update_object, hchain]
    rfl
  · intro k val hk
    have hkne : k ≠ "CREATED" := by
      intro he
      rw [he, hkc] at hk
      cases hk
    have h1 : dlookup k (dupdate [] attrs2) = dlookup k attrs2 := by
      rw [dlookup_dupdate _ hnd2]
      cases dlookup k attrs2 <;> rfl
    rw [h1, hattrs2, dlookup_dinsert_ne _ _ hkne, hattrs1,
      dlookup_dupdate _ hnd, hk]
    rfl
  · refine ⟨tU, ?_, ?_⟩
    · have h1 : dlookup "CREATED" (dupdate [] attrs2) =
          dlookup "CREATED" attrs2 := by
        rw [dlookup_dupdate _ hnd2]
        cases dlookup "CREATED" attrs2 <;> rfl
      rw [h1, hattrs2, ht0, dlookup_dinsert_self]
    · have h1 : dlookup "UPDATED" (dupdate [] attrs2) =
          dlookup "UPDATED" attrs2 := by
        rw [dlookup_dupdate _ hnd2]
        cases dlookup "UPDATED" attrs2 <;> rfl
      rw [h1, hattrs2, dlookup_dinsert_ne _ _ (by decide), htU]

/-- Witness for C1 (amended) at the spec's own concrete scenario. -/
theorem c1_witness :
    ∃ rec,
      get_object (update_catalog_info [] "T0" "DISK01" "TESTLIB" "PGM1" "PGM"
        [("PGMTYPE", "JAVA")]) "DISK01" "TESTLIB" "PGM1" = some rec ∧
      (∀ k val, dlookup k [("PGMTYPE", "JAVA")] = some val →
        dlookup k rec = some val) ∧
      ∃ t, dlookup "CREATED" rec = some t ∧ dlookup "UPDATED" rec = some t :=
  c1_amended [] "T0" "DISK01" "TESTLIB" "PGM1" "PGM" [("PGMTYPE", "JAVA")]
    (by decide) (by decide) (by decide)

/-- One `update_catalog_info` call on an existing record whose attributes
contain `CREATED = c`: when the payload lacks `CREATED` the stored `CREATED`
survives, and when it also lacks `UPDATED` the stored `UPDATED` becomes the
call's timestamp. -/
theorem update_catalog_info_existing (cat : Catalog) (now v l o ty : String)
    (kwargs : Attrs) (c : String) (hnd : NodupKeys kwargs)
    (hkc : dlookup "CREATED" kwargs = none)
    (hex : (get_object cat v l o).bind (dlookup "CREATED") = some c) :
    (get_object (update_catalog_info cat now v l o ty kwargs) v l o).bind
        (dlookup "CREATED") = some c ∧
    (dlookup "UPDATED" kwargs = none →
      (get_object (update_catalog_info cat now v l o ty kwargs) v l o).bind
          (dlookup "UPDATED") = some now) := by
  have hbase : NodupKeys [("TYPE", ty), ("UPDATED", now)] := by
    simp [NodupKeys]
  cases hgo : get_object cat v l o with
  | none =>
    rw [hgo] at hex
    cases hex
  | some rec =>
    rw [hgo] at hex
    have hex' : dlookup "CREATED" rec = some c := hex
    have hne : rec.isEmpty = false := isEmpty_eq_false_of_dlookup hex'
    have hchain : dget (dget (dget cat v []) l []) o [] = rec :=
      dget_chain_of_get_object_some hgo
    have hunfold : update_catalog_info cat now v l o ty kwargs =
        update_object cat v l o (dupdate [("TYPE", ty), ("UPDATED", now)] kwargs) := by
      rw [update_catalog_info, hgo]
      simp only [Option.getD_some, hne]
      rfl
    set attrs1 := dupdate [("TYPE", ty), ("UPDATED", now)] kwargs with hattrs1
    have hnd1 : NodupKeys attrs1 := nodupKeys_dupdate kwargs hbase
    have hc1 : dlookup "CREATED" attrs1 = none := by
      rw [hattrs1, dlookup_dupdate _ hnd, hkc]
      rfl
    have hcm : created_merge rec attrs1 = dinsert attrs1 "CREATED" c := by
      rw [created_merge, hex', hc1]
    have hnd2 : NodupKeys (dinsert attrs1 "CREATED" c) :=
      nodupKeys_dinsert _ _ hnd1
    have hafter : get_object (update_object cat v l o attrs1) v l o =
        some (dupdate rec (dinsert attrs1 "CREATED" c)) := by
      rw [get_object_update_object, hchain, hcm]
    constructor
    · rw [hunfold, hafter]
      show dlookup "CREATED" (dupdate rec (dinsert attrs1 "CREATED" c)) = some c
      rw [dlookup_dupdate _ hnd2, dlookup_dinsert_self]
      rfl
    · intro hku
      rw [hunfold, hafter]
      show dlookup "UPDATED" (dupdate rec (dinsert attrs1 "CREATED" c)) = some now
      rw [dlookup_dupdate _ hnd2, dlookup_dinsert_ne _ _ (by decide), hattrs1,
        dlookup_dupdate _ hnd, hku]
      rfl

/-- C2 as stated fails when the payload carries an `UPDATED` key: the
payload's value overwrites the freshly generated timestamp
(`{'TYPE': ..., 'UPDATED': now, **kwargs}` lets `kwargs` win), so `UPDATED`
is not the new write's timestamp even though the payload lacks `CREATED`. -/
theorem c2_counterexample :
    dlookup "CREATED" [("UPDATED", "T1")] = none ∧
    (get_object
        (update_catalog_info
          [("V", [("L", [("O",
            [("TYPE", "PGM"), ("CREATED", "T0"), ("UPDATED", "T0")])])])]
          "T2" "V" "L" "O" "PGM" [("UPDATED", "T1")]) "V" "L" "O").bind
      (dlookup "UPDATED") = some "T1" ∧
    ("T1" : String) ≠ "T2" ∧
    (get_object
        (update_catalog_info
          [("V", [("L", [("O",
            [("TYPE", "PGM"), ("CREATED", "T0"), ("UPDATED", "T0")])])])]
          "T2" "V" "L" "O" "PGM" [("UPDATED", "T1")]) "V" "L" "O").bind
      (dlookup "CREATED") = some "T0" := by
  refine ⟨rfl, rfl, by decide, rfl⟩

/-- C2 (amended: every payload lacks both `CREATED` and `UPDATED` keys):
after any sequence of `update_catalog_info` calls on an object whose record
holds `CREATED = c`, the record still holds `CREATED = c`, and `UPDATED` is
the timestamp of the last call of the sequence. -/
theorem c2_amended (cat : Catalog) (v l o : String) (calls : List UpdateCall)
    (c : String)
    (hcalls : ∀ u ∈ calls, NodupKeys u.kwargs ∧
      dlookup "CREATED" u.kwargs = none ∧ dlookup "UPDATED" u.kwargs = none)
    (hc : (get_object cat v l o).bind (dlookup "CREATED") = some c) :
    (get_object (apply_updates cat v l o calls) v l o).bind
        (dlookup "CREATED") = some c ∧
    (∀ last, calls.getLast? = some last →
      (get_object (apply_updates cat v l o calls) v l o).bind
          (dlookup "UPDATED") = some last.now) := by
  induction calls generalizing cat with
  | nil =>
    refine ⟨hc, ?_⟩
    intro last h
    cases h
  | cons u rest ih =>
    have hu := hcalls u (List.mem_cons_self _ _)
    have hrest : ∀ x ∈ rest, NodupKeys x.kwargs ∧
        dlookup "CREATED" x.kwargs = none ∧ dlookup "UPDATED" x.kwargs = none :=
      fun x hx => hcalls x (List.mem_cons_of_mem _ hx)
    have hstep := update_catalog_info_existing cat u.now v l o u.object_type
      u.kwargs c hu.1 hu.2.1 hc
    have happ : apply_updates cat v l o (u :: rest) =
        apply_updates (update_catalog_info cat u.now v l o u.object_type
          u.kwargs) v l o rest := rfl
    have ihres := ih (update_catalog_info cat u.now v l o u.object_type
      u.kwargs) hrest hstep.1
    rw [happ]
    refine ⟨ihres.1, ?_⟩
    intro last hlast
    cases rest with
    | nil =>
      have hlu : last = u := by
        cases hlast
        rfl
      rw [hlu]
      exact hstep.2 hu.2.2
    | cons r t =>
      rw [List.getLast?_cons_cons] at hlast
      exact ihres.2 last hlast

/-- Witness for C2 (amended): a one-call sequence on an existing record. -/
theorem c2_witness :
    (get_object
        (apply_updates
          [("V", [("L", [("O",
            [("TYPE", "PGM"), ("CREATED", "T0"), ("UPDATED", "T0")])])])]
          "V" "L" "O" [⟨"T1", "PGM", [("ENCODING", "UTF-8")]⟩]) "V" "L" "O").bind
      (dlookup "CREATED") = some "T0" ∧
    (get_object
        (apply_updates
          [("V", [("L", [("O",
            [("TYPE", "PGM"), ("CREATED", "T0"), ("UPDATED", "T0")])])])]
          "V" "L" "O" [⟨"T1", "PGM", [("ENCODING", "UTF-8")]⟩]) "V" "L" "O").bind
      (dlookup "UPDATED") = some "T1" := by
  have h := c2_amended
    [("V", [("L", [("O",
      [("TYPE", "PGM"), ("CREATED", "T0"), ("UPDATED", "T0")])])])]
    "V" "L" "O" [⟨"T1", "PGM", [("ENCODING", "UTF-8")]⟩] "T0"
    (by decide) (by decide)
  exact ⟨h.1, h.2 ⟨"T1", "PGM", [("ENCODING", "UTF-8")]⟩ (by decide)⟩

theorem query_objects_no_constraints (cat : Catalog) :
    query_objects cat [] [] none = flatten_catalog cat := by
  have hfil : (flatten_catalog cat).filter (filter_match []) =
      flatten_catalog cat :=
    List.filter_eq_self.mpr (fun a _ => rfl)
  rw [query_objects, hfil]
  rfl

/-- C8 as stated fails twice on the code.  First, the PostgreSQL backend
searches only `object_name` (ILIKE) and returns unranked rows ordered by
name, so an object matched only through its description is returned by the
JSON backend but not by the relational one.  Second, even the JSON backend
matches the query against `name + ' ' + description`, so a query spanning
the space between the two fields is returned (with base rank 1.0) although
neither the name nor the description contains it. -/
theorem c8_counterexample :
    pg_search_objects
      [("V", [("L", [("PAYCALC",
        [("TYPE", "PGM"), ("DESCRIPTION", "payroll calculation")])])])]
      "payroll" none = [] ∧
    search_objects
      [("V", [("L", [("PAYCALC",
        [("TYPE", "PGM"), ("DESCRIPTION", "payroll calculation")])])])]
      "payroll" none =
      [(⟨"V", "L", "PAYCALC",
        [("TYPE", "PGM"), ("DESCRIPTION", "payroll calculation")]⟩, 13)] ∧
    search_objects
      [("V", [("L", [("AB", [("TYPE", "PGM"), ("DESCRIPTION", "CD")])])])]
      "b c" none =
      [(⟨"V", "L", "AB", [("TYPE", "PGM"), ("DESCRIPTION", "CD")]⟩, 10)] ∧
    strContains "ab" "b c" = false ∧
    strContains "cd" "b c" = false := by
  exact ⟨rfl, rfl, rfl, rfl, rfl⟩

/-- C8 (amended to the JSON file backend and to the text actually searched):
`JSONFileBackend.search_objects` returns exactly the catalog objects whose
lowercased `name ++ ' ' ++ description` contains the lowercased query, each
ranked by the fixed rule (base 1.0, +0.5 when the query occurs in the name,
+0.3 when it occurs in the description — ranks scaled by 10 in the model),
and the result is ordered by descending rank. -/
theorem c8_amended (cat : Catalog) (query : String) :
    List.Pairwise (fun a b => b.2 ≤ a.2) (search_objects cat query none) ∧
    ∀ obj rank, ((obj, rank) ∈ search_objects cat query none ↔
      obj ∈ flatten_catalog cat ∧
      strContains (searchable_text obj) (strLower query) = true ∧
      rank = search_rank (strLower query) obj) := by
  have hsearch : search_objects cat query none =
      sortBy (fun a b => decide (b.2 ≤ a.2))
        ((flatten_catalog cat).filterMap fun obj =>
          if strContains (searchable_text obj) (strLower query) then
            some (obj, search_rank (strLower query) obj)
          else none) := by
    simp only [search_objects]
    rw [query_objects_no_constraints]
  constructor
  · rw [hsearch]
    have htot : ∀ x y : QueryResult × Nat,
        decide (y.2 ≤ x.2) = true ∨ decide (x.2 ≤ y.2) = true := by
      intro x y
      rcases Nat.le_total y.2 x.2 with h | h
      · exact Or.inl (decide_eq_true h)
      · exact Or.inr (decide_eq_true h)
    have htrans : ∀ x y z : QueryResult × Nat,
        decide (y.2 ≤ x.2) = true → decide (z.2 ≤ y.2) = true →
        decide (z.2 ≤ x.2) = true := by
      intro x y z h1 h2
      exact decide_eq_true (Nat.le_trans (of_decide_eq_true h2) (of_decide_eq_true h1))
    exact (pairwise_sortBy htot htrans _).imp (fun h => of_decide_eq_true h)
  · intro obj rank
    rw [hsearch, mem_sortBy, List.mem_filterMap]
    constructor
    · rintro ⟨a, ha, hfa⟩
      by_cases hcond : strContains (searchable_text a) (strLower query) = true
      · rw [if_pos hcond] at hfa
        injection hfa with h1
        rw [Prod.mk.injEq] at h1
        obtain ⟨h2, h3⟩ := h1
        subst h2
        subst h3
        exact ⟨ha, hcond, rfl⟩
      · rw [if_neg hcond] at hfa
        cases hfa
    · rintro ⟨hmem, hcond, hrank⟩
      exact ⟨obj, hmem, by rw [if_pos hcond, hrank]⟩

end DBIO
